import Mathlib

set_option maxRecDepth 8000

/-!
Verification of the SahelPay SDK core protocols: the status-polling loop
(`src/javascript/src/index.ts`, `PaymentsAPI.poll` / `PayoutsAPI.poll`), the
webhook signature verifier (`src/javascript/src/merchant.ts`
`SahelPayMerchant.verifyWebhook`, `src/php/src/Resources/Webhook.php`
`Webhook::verify`) and event parser (`Webhook::parse`), and the capability
matrix (`src/php/src/Capabilities.php`).

Conventions of the shallow embedding:
* The HMAC-SHA256 primitive (Node `crypto.createHmac`, PHP `hash_hmac`) is an
  external library call in the source; it is modelled as an opaque oracle
  parameter `hmac : String → String → String` returning the lowercase-hex
  digest.  `demoHmac` below is a concrete executable stand-in used to
  instantiate witnesses; the verification logic never inspects digests.
* JavaScript `Date.now()` time is modelled by an explicit elapsed-milliseconds
  counter: each `setTimeout(check, delay)` advances the clock by `delay`, and
  status checks themselves are instantaneous (the claims speak of stubs).
* `delay = Math.min(delay * 1.5, 10000)` is modelled on `Nat` milliseconds as
  `min (delay * 3 / 2) 10000`; on the integer schedule actually reachable from
  the defaults (2000, 3000, 4500, 6750, 10000, …) the two agree exactly, and
  sub-millisecond halves are floored.
* Thrown exceptions are modelled with `Except`: a `.error` value is a throw.
  The `try/catch` in `merchant.ts` is the explicit `match` in
  `SahelPayMerchant.verifyWebhook`.
-/

/-- Result of one `checkStatus` (payments) / `retrieve` (payouts) call inside
the poll loop: either a status string together with the fetched record, or a
network error (a rejection of the underlying request promise). -/
inductive CheckResult (π : Type) where
  | ok (status : String) (item : π)
  | netError (msg : String)

/-- How a poll run ends.  `resolved` and the two rejection forms mirror the
`resolve`/`reject` calls of `PaymentsAPI.poll`; `outOfFuel` is the artefact of
the fuel-based embedding and is proved unreachable for the fuel budget used by
`paymentsPoll`/`payoutsPoll`. -/
inductive PollOutcome (π : Type) where
  | resolved (item : π)
  | timedOut (msg : String)
  | rejectedError (msg : String)
  | outOfFuel

/-- Observable trace of a poll run: its outcome, the elapsed milliseconds at
termination, and the sequence of `onStatus(status, item)` invocations in
order. -/
structure PollRun (π : Type) where
  outcome : PollOutcome π
  elapsed : Nat
  statusLog : List (String × π)

/-- Embedding of the recursive `check` closure of `PaymentsAPI.poll` /
`PayoutsAPI.poll` (src/javascript/src/index.ts).  Source order inside `check`:
call `checkStatus`; on success invoke `onStatus`, resolve if the status is in
the terminal list, reject with `'Polling timeout'` if `Date.now() - start >
timeout`, otherwise grow the backoff delay (`min (delay * 1.5) 10000`) and
re-schedule; on a thrown (network) error, reject with that error if past the
deadline, otherwise re-schedule after the current un-grown delay.  `fuel` is
the embedding artefact bounding recursion depth. -/
def pollAux {π : Type} (terminal : List String) (check : Nat → CheckResult π)
    (timeout : Nat) : Nat → Nat → Nat → Nat → List (String × π) → PollRun π
  | 0, _, elapsed, _, log => ⟨.outOfFuel, elapsed, log.reverse⟩
  | fuel + 1, k, elapsed, delay, log =>
    match check k with
    | .ok status item =>
      let log2 := (status, item) :: log
      if terminal.contains status then
        ⟨.resolved item, elapsed, log2.reverse⟩
      else if timeout < elapsed then
        ⟨.timedOut "Polling timeout", elapsed, log2.reverse⟩
      else
        let delay2 := min (delay * 3 / 2) 10000
        pollAux terminal check timeout fuel (k + 1) (elapsed + delay2) delay2 log2
    | .netError msg =>
      if timeout < elapsed then
        ⟨.rejectedError msg, elapsed, log.reverse⟩
      else
        pollAux terminal check timeout fuel (k + 1) (elapsed + delay) delay log

/-- JavaScript `x || d` for the numeric options of `poll`: `0` (and absent,
encoded as `0`) is falsy and falls back to the default. -/
def jsOrDefault (x d : Nat) : Nat := if x = 0 then d else x

/-- The terminal statuses `PaymentsAPI.poll` resolves on
(src/javascript/src/index.ts: `['SUCCESS', 'FAILED', 'CANCELLED']`). -/
def paymentsTerminal : List String := ["SUCCESS", "FAILED", "CANCELLED"]

/-- The terminal statuses `PayoutsAPI.poll` resolves on
(src/javascript/src/index.ts: `['COMPLETED', 'FAILED', 'CANCELLED']`). -/
def payoutsTerminal : List String := ["COMPLETED", "FAILED", "CANCELLED"]

/-- `PaymentsAPI.poll(referenceId, options)`: defaults `timeout = 120000`,
`interval = 2000`; fuel `timeout + 2` is shown sufficient below.  `check k`
is the result of the `k`-th `this.checkStatus(referenceId)` call. -/
def paymentsPoll {π : Type} (check : Nat → CheckResult π)
    (interval timeout : Nat) : PollRun π :=
  let t := jsOrDefault timeout 120000
  let d := jsOrDefault interval 2000
  pollAux paymentsTerminal check t (t + 2) 0 0 d []

/-- `PayoutsAPI.poll(reference, options)`: identical loop with the payout
terminal list; `check k` is the `k`-th `this.retrieve(reference)` call, its
status component being the `status` field of the returned payout. -/
def payoutsPoll {π : Type} (check : Nat → CheckResult π)
    (interval timeout : Nat) : PollRun π :=
  let t := jsOrDefault timeout 120000
  let d := jsOrDefault interval 2000
  pollAux payoutsTerminal check t (t + 2) 0 0 d []

namespace Capabilities

/-- `Capabilities::PAYMENT_METHODS` (src/php/src/Capabilities.php). -/
def PAYMENT_METHODS : List String :=
  ["ORANGE_MONEY", "WAVE", "MOOV", "CARD", "VISA", "MASTERCARD", "GIM_UEMOA"]

/-- `Capabilities::CAPABILITY_TYPES` (src/php/src/Capabilities.php). -/
def CAPABILITY_TYPES : List String :=
  ["payments", "payment_links", "qr_code", "payouts", "withdrawals", "opr",
   "splits", "customer_portal"]

/-- `Capabilities::MATRIX` (src/php/src/Capabilities.php), transcribed
verbatim: for each payment method, the capability → bool row. -/
def MATRIX : List (String × List (String × Bool)) :=
  [("ORANGE_MONEY",
    [("payments", true), ("payment_links", true), ("qr_code", false),
     ("payouts", true), ("withdrawals", true), ("opr", true),
     ("splits", false), ("customer_portal", false)]),
   ("WAVE",
    [("payments", true), ("payment_links", true), ("qr_code", true),
     ("payouts", true), ("withdrawals", true), ("opr", true),
     ("splits", false), ("customer_portal", false)]),
   ("MOOV",
    [("payments", true), ("payment_links", true), ("qr_code", false),
     ("payouts", true), ("withdrawals", true), ("opr", true),
     ("splits", false), ("customer_portal", false)]),
   ("CARD",
    [("payments", true), ("payment_links", true), ("qr_code", false),
     ("payouts", false), ("withdrawals", true), ("opr", false),
     ("splits", true), ("customer_portal", true)]),
   ("VISA",
    [("payments", true), ("payment_links", true), ("qr_code", false),
     ("payouts", false), ("withdrawals", true), ("opr", false),
     ("splits", true), ("customer_portal", true)]),
   ("MASTERCARD",
    [("payments", true), ("payment_links", true), ("qr_code", false),
     ("payouts", false), ("withdrawals", true), ("opr", false),
     ("splits", true), ("customer_portal", true)]),
   ("GIM_UEMOA",
    [("payments", true), ("payment_links", true), ("qr_code", false),
     ("payouts", false), ("withdrawals", true), ("opr", false),
     ("splits", false), ("customer_portal", false)])]

/-- The nested array access `self::MATRIX[$method][$capability]` as an
optional lookup (`none` models an unset index). -/
def matrixLookup (method capability : String) : Option Bool :=
  match MATRIX.lookup method with
  | none => none
  | some row => row.lookup capability

/-- `Capabilities::has`: `self::MATRIX[$method][$capability] ?? false`. -/
def has (method capability : String) : Bool :=
  (matrixLookup method capability).getD false

/-- `Capabilities::getMethodsWithCapability`: collect, in matrix order, the
methods whose row maps `capability` to a truthy value (`?? false` default). -/
def getMethodsWithCapability (capability : String) : List String :=
  MATRIX.filterMap fun p =>
    if (p.2.lookup capability).getD false then some p.1 else none

end Capabilities

/-- JSON value model shared by `JSON.parse` (merchant.ts) and
`json_decode($payload, true)` (Webhook.php).  With `assoc = true` PHP decodes
both JSON objects and arrays to PHP arrays; the distinction is kept here and
erased only in the PHP truthiness test.  A number is kept exactly as
`mantissa * 10 ^ exp10`, which suffices for the zero test PHP truthiness
needs. -/
inductive Json where
  | null
  | bool (b : Bool)
  | num (mantissa : Int) (exp10 : Int)
  | str (s : String)
  | arr (elems : List Json)
  | obj (fields : List (String × Json))

/-- Splits a character list at every occurrence of `sep`, JavaScript
`String.prototype.split` style: the empty input yields one empty field. -/
def splitOnChar (sep : Char) : List Char → List (List Char)
  | [] => [[]]
  | c :: cs =>
    let rest := splitOnChar sep cs
    if c = sep then [] :: rest
    else
      match rest with
      | [] => [[c]]
      | r :: rs => (c :: r) :: rs

/-- Splits at the first occurrence of `sep` only (PHP
`explode($sep, $s, 2)`); `none` when `sep` does not occur. -/
def splitFirst (sep : Char) : List Char → Option (List Char × List Char)
  | [] => none
  | c :: cs =>
    if c = sep then some ([], cs)
    else
      match splitFirst sep cs with
      | none => none
      | some (a, b) => some (c :: a, b)

/-- Drops leading JSON whitespace. -/
def skipWs : List Char → List Char
  | [] => []
  | c :: cs =>
    if c = ' ' ∨ c = '\t' ∨ c = '\n' ∨ c = '\r' then skipWs cs else c :: cs

/-- Value of a decimal digit character. -/
def digitVal (c : Char) : Nat := c.toNat - 48

/-- Folds a digit run into a natural number. -/
def digitsToNat (ds : List Char) : Nat :=
  ds.foldl (fun a c => a * 10 + digitVal c) 0

/-- Hex digit value for `\uXXXX` escapes. -/
def hexVal (c : Char) : Option Nat :=
  if '0' ≤ c ∧ c ≤ '9' then some (c.toNat - 48)
  else if 'a' ≤ c ∧ c ≤ 'f' then some (c.toNat - 87)
  else if 'A' ≤ c ∧ c ≤ 'F' then some (c.toNat - 55)
  else none

/-- Parses the body of a JSON string literal (after the opening quote),
returning the decoded characters and the input after the closing quote. -/
def parseStringChars : List Char → Option (List Char × List Char)
  | [] => none
  | '"' :: cs => some ([], cs)
  | '\\' :: e :: cs =>
    match e with
    | '"' => (parseStringChars cs).map fun p => ('"' :: p.1, p.2)
    | '\\' => (parseStringChars cs).map fun p => ('\\' :: p.1, p.2)
    | '/' => (parseStringChars cs).map fun p => ('/' :: p.1, p.2)
    | 'b' => (parseStringChars cs).map fun p => ('\x08' :: p.1, p.2)
    | 'f' => (parseStringChars cs).map fun p => ('\x0c' :: p.1, p.2)
    | 'n' => (parseStringChars cs).map fun p => ('\n' :: p.1, p.2)
    | 'r' => (parseStringChars cs).map fun p => ('\r' :: p.1, p.2)
    | 't' => (parseStringChars cs).map fun p => ('\t' :: p.1, p.2)
    | 'u' =>
      match cs with
      | h1 :: h2 :: h3 :: h4 :: cs2 =>
        match hexVal h1, hexVal h2, hexVal h3, hexVal h4 with
        | some a, some b, some c, some d =>
          let n := ((a * 16 + b) * 16 + c) * 16 + d
          (parseStringChars cs2).map fun p => (Char.ofNat n :: p.1, p.2)
        | _, _, _, _ => none
      | _ => none
    | _ => none
  | c :: cs => (parseStringChars cs).map fun p => (c :: p.1, p.2)

/-- Parses a JSON number starting at the input head: optional minus sign,
integer digits, optional fraction, optional exponent; value is returned as
`(mantissa, exp10)`. -/
def parseNumber (cs : List Char) : Option (Json × List Char) :=
  let (neg, cs1) :=
    match cs with
    | '-' :: rest => (true, rest)
    | _ => (false, cs)
  let intDs := cs1.takeWhile Char.isDigit
  let cs2 := cs1.drop intDs.length
  if intDs.isEmpty then none
  else
    let (fracDs, cs3) :=
      match cs2 with
      | '.' :: rest =>
        let ds := rest.takeWhile Char.isDigit
        (ds, rest.drop ds.length)
      | _ => ([], cs2)
    if cs2 ≠ [] ∧ cs2.head? = some '.' ∧ fracDs.isEmpty then none
    else
      let (expVal, cs4) :=
        match cs3 with
        | 'e' :: rest => (some rest, rest)
        | 'E' :: rest => (some rest, rest)
        | _ => (none, cs3)
      match expVal with
      | none =>
        let m : Int := Int.ofNat (digitsToNat (intDs ++ fracDs))
        let m := if neg then -m else m
        some (.num m (-(Int.ofNat fracDs.length)), cs3)
      | some rest =>
        let (eneg, rest1) :=
          match rest with
          | '-' :: r => (true, r)
          | '+' :: r => (false, r)
          | _ => (false, rest)
        let expDs := rest1.takeWhile Char.isDigit
        let rest2 := rest1.drop expDs.length
        if expDs.isEmpty then none
        else
          let m : Int := Int.ofNat (digitsToNat (intDs ++ fracDs))
          let m := if neg then -m else m
          let e : Int := Int.ofNat (digitsToNat expDs)
          let e := if eneg then -e else e
          some (.num m (e - Int.ofNat fracDs.length), cs4.drop (cs4.length - rest2.length))

mutual

/-- Recursive-descent JSON value parser; `fuel` bounds the recursion and is an
embedding artefact (`jsonDecode` supplies more fuel than any input can
consume, since every recursive call is preceded by consuming at least one
character). -/
def parseValue : Nat → List Char → Option (Json × List Char)
  | 0, _ => none
  | fuel + 1, cs =>
    match skipWs cs with
    | [] => none
    | 'n' :: 'u' :: 'l' :: 'l' :: rest => some (.null, rest)
    | 't' :: 'r' :: 'u' :: 'e' :: rest => some (.bool true, rest)
    | 'f' :: 'a' :: 'l' :: 's' :: 'e' :: rest => some (.bool false, rest)
    | '"' :: rest =>
      (parseStringChars rest).map fun p => (.str (String.mk p.1), p.2)
    | '[' :: rest =>
      match skipWs rest with
      | ']' :: rest2 => some (.arr [], rest2)
      | rest2 =>
        (parseElems fuel rest2).map fun p => (.arr p.1, p.2)
    | '{' :: rest =>
      match skipWs rest with
      | '}' :: rest2 => some (.obj [], rest2)
      | rest2 =>
        (parseFields fuel rest2).map fun p => (.obj p.1, p.2)
    | c :: rest =>
      if c = '-' ∨ c.isDigit then parseNumber (c :: rest) else none

/-- Parses one-or-more comma-separated array elements up to `]`. -/
def parseElems : Nat → List Char → Option (List Json × List Char)
  | 0, _ => none
  | fuel + 1, cs =>
    match parseValue fuel cs with
    | none => none
    | some (v, rest) =>
      match skipWs rest with
      | ',' :: rest2 =>
        (parseElems fuel rest2).map fun p => (v :: p.1, p.2)
      | ']' :: rest2 => some ([v], rest2)
      | _ => none

/-- Parses one-or-more comma-separated `"key": value` fields up to `}`. -/
def parseFields : Nat → List Char → Option (List (String × Json) × List Char)
  | 0, _ => none
  | fuel + 1, cs =>
    match skipWs cs with
    | '"' :: rest =>
      match parseStringChars rest with
      | none => none
      | some (key, rest2) =>
        match skipWs rest2 with
        | ':' :: rest3 =>
          match parseValue fuel rest3 with
          | none => none
          | some (v, rest4) =>
            match skipWs rest4 with
            | ',' :: rest5 =>
              (parseFields fuel rest5).map fun p =>
                ((String.mk key, v) :: p.1, p.2)
            | '}' :: rest5 => some ([(String.mk key, v)], rest5)
            | _ => none
        | _ => none
    | _ => none

end

/-- Whole-document JSON decoding, the common model of `JSON.parse(rawBody)`
(merchant.ts) and `json_decode($payload, true)` (Webhook.php): parse one value
and require only trailing whitespace; `none` is the syntax-error outcome
(`JSON.parse` throws, `json_decode` returns `null`). -/
def jsonDecode (s : String) : Option Json :=
  match parseValue (2 * s.data.length + 2) s.data with
  | none => none
  | some (v, rest) => if skipWs rest = [] then some v else none

/-- PHP truthiness of a decoded JSON document, as tested by `if (!$data)` in
`Webhook::parse` after `json_decode($payload, true)`: `null`, `false`, the
number zero, the strings `""` and `"0"`, and the empty array (which both `[]`
and an empty JSON object decode to) are falsy. -/
def phpFalsy : Json → Bool
  | .null => true
  | .bool b => !b
  | .num m _ => m == 0
  | .str s => s == "" || s == "0"
  | .arr xs => xs.isEmpty
  | .obj fs => fs.isEmpty

/-- Whether `json_decode($payload, true)` yields a PHP array (a JSON object or
array); `WebhookEvent::__construct(array $data)` under `strict_types=1` raises
a `TypeError` for any other decoded value. -/
def phpIsArray : Json → Bool
  | .arr _ => true
  | .obj _ => true
  | _ => false

/-- First-match association lookup, the model of reading `parts['t']` /
`$parts['t'] ?? null` from the parsed signature-header map (the map builders
below prepend later entries, so first match = last write, matching
overwrite-on-duplicate semantics in both languages). -/
def assocFind (k : String) : List (String × String) → Option String
  | [] => none
  | (k2, v) :: rest => if k = k2 then some v else assocFind k rest

/-- Header parsing of `SahelPayMerchant.verifyWebhook` (merchant.ts):
`signatureHeader.split(',')`, then for each part `part.split('=')`
destructured as `[key, value]` (segments past the second are dropped), stored
only `if (key && value)` — both non-empty. -/
def jsParseSigHeader (hdr : String) : List (String × String) :=
  (splitOnChar ',' hdr.data).foldl
    (fun parts part =>
      match splitOnChar '=' part with
      | key :: value :: _ =>
        if key ≠ [] ∧ value ≠ [] then
          (String.mk key, String.mk value) :: parts
        else parts
      | _ => parts) []

/-- Header parsing of `Webhook::parseSignatureHeader` (Webhook.php):
`explode(',', $header)`, then `explode('=', $part, 2)`, stored whenever two
segments result (the value keeps any later `=` signs and may be empty). -/
def phpParseSigHeader (hdr : String) : List (String × String) :=
  (splitOnChar ',' hdr.data).foldl
    (fun parts part =>
      match splitFirst '=' part with
      | some (k, v) => (String.mk k, String.mk v) :: parts
      | none => parts) []

/-- Model of JavaScript `parseInt(s, 10)`: skip leading whitespace, optional
sign, then leading decimal digits; `none` models `NaN` (no digits). -/
def parseIntJS (s : String) : Option Int :=
  let cs := skipWs s.data
  let signed : Bool × List Char :=
    match cs with
    | '-' :: rest => (true, rest)
    | '+' :: rest => (false, rest)
    | _ => (false, cs)
  let ds := signed.2.takeWhile Char.isDigit
  if ds.isEmpty then none
  else
    let n : Int := Int.ofNat (digitsToNat ds)
    some (if signed.1 then -n else n)

/-- Model of PHP `intval($s)`: like `parseIntJS` but yielding `0` when no
leading digits exist. -/
def phpIntval (s : String) : Int :=
  (parseIntJS s).getD 0

/-- PHP truthiness of `$parts['t'] ?? null` as tested by
`if (!$timestamp || !$signature)`: `null`, `""` and `"0"` are falsy. -/
def phpFalsyStr : Option String → Bool
  | none => true
  | some s => s == "" || s == "0"

/-- JavaScript truthiness of `parts['t']` as tested by `!timestamp`:
`undefined` and the empty string are falsy. -/
def jsFalsyStr : Option String → Bool
  | none => true
  | some s => s == ""

/-- Node `crypto.timingSafeEqual(Buffer.from(a), Buffer.from(b))`: throws
(`.error`) when the byte lengths differ, otherwise a constant-time equality
over the full buffers. -/
def timingSafeEqual (a b : String) : Except String Bool :=
  if a.length = b.length then .ok (a == b)
  else .error "Input buffers must have the same byte length"

/-- Number of per-character comparison steps `timingSafeEqual` performs: after
the length guard it always scans the full buffers, so the work depends only on
the (equal) lengths, never on where the contents first differ. -/
def timingSafeEqualCost (a b : String) : Nat :=
  if a.length = b.length then a.length else 0

/-- PHP `hash_equals($known, $user)`: `false` on length mismatch, otherwise a
constant-time full comparison; never throws. -/
def hashEquals (known user : String) : Bool :=
  known.length = user.length && known == user

/-- Comparison-step count of `hash_equals`: zero work after the length guard
fails, otherwise the full common length — independent of content. -/
def hashEqualsCost (known user : String) : Nat :=
  if known.length = user.length then known.length else 0

/-- Result record of `SahelPayMerchant.verifyWebhook`
(`WebhookVerificationResult` in merchant.ts). -/
structure WebhookVerificationResult where
  valid : Bool
  payload : Option Json
  error : Option String

/-- A `verifyWebhook` run instrumented with the number of per-character
signature-comparison steps it performed (`0` when control flow never reached a
comparison). -/
structure MerchantVerifyRun where
  result : WebhookVerificationResult
  cmpCost : Nat

/-- Body of the `try` block of `SahelPayMerchant.verifyWebhook` (merchant.ts):
parse the header; if neither `t` nor `v1` parsed and the raw header is 64
characters, verify the legacy form `HMAC(secret, rawBody)` against the whole
header; otherwise require both `t` and `v1`, reject a timestamp outside the
tolerance window (a `NaN` timestamp compares false and passes), and verify
`HMAC(secret, t + "." + rawBody)` against `v1` with `timingSafeEqual`.
`.error` is a thrown exception (from `timingSafeEqual` on length mismatch or
from `JSON.parse`), to be caught by the wrapper. -/
def verifyWebhookTry (hmac : String → String → String) (secret rawBody hdr : String)
    (toleranceSeconds now : Int) : Except String WebhookVerificationResult × Nat :=
  let parts := jsParseSigHeader hdr
  let timestamp := assocFind "t" parts
  let signature := assocFind "v1" parts
  if jsFalsyStr timestamp ∧ jsFalsyStr signature ∧ hdr.length = 64 then
    let expected := hmac secret rawBody
    let cost := timingSafeEqualCost hdr expected
    match timingSafeEqual hdr expected with
    | .error e => (.error e, cost)
    | .ok eq =>
      if !eq then (.ok ⟨false, none, some "Invalid signature (legacy)"⟩, cost)
      else
        match jsonDecode rawBody with
        | none => (.error "Unexpected token in JSON", cost)
        | some v => (.ok ⟨true, some v, none⟩, cost)
  else if jsFalsyStr timestamp ∨ jsFalsyStr signature then
    (.ok ⟨false, none, some "Invalid signature header format"⟩, 0)
  else
    let t := timestamp.getD ""
    let s := signature.getD ""
    let stale :=
      match parseIntJS t with
      | none => false
      | some tn => toleranceSeconds < ((now - tn).natAbs : Int)
    if stale then
      (.ok ⟨false, none, some "Timestamp too old, possible replay attack"⟩, 0)
    else
      let expected := hmac secret (t ++ "." ++ rawBody)
      let cost := timingSafeEqualCost s expected
      match timingSafeEqual s expected with
      | .error e => (.error e, cost)
      | .ok eq =>
        if !eq then (.ok ⟨false, none, some "Invalid signature"⟩, cost)
        else
          match jsonDecode rawBody with
          | none => (.error "Unexpected token in JSON", cost)
          | some v => (.ok ⟨true, some v, none⟩, cost)

/-- `SahelPayMerchant.verifyWebhook(rawBody, signatureHeader, tolerance)`
(merchant.ts): missing webhook secret and missing header short-circuit to
returned error results; everything else runs in the `try` block, whose thrown
exceptions the `catch` converts into a returned
`{ valid: false, error: message }`. -/
def verifyWebhookRun (hmac : String → String → String) (webhookSecret : Option String)
    (rawBody : String) (signatureHeader : Option String)
    (toleranceSeconds now : Int) : MerchantVerifyRun :=
  match webhookSecret with
  | none => ⟨⟨false, none, some "webhookSecret not configured"⟩, 0⟩
  | some secret =>
    match signatureHeader with
    | none => ⟨⟨false, none, some "Missing signature header"⟩, 0⟩
    | some hdr =>
      match verifyWebhookTry hmac secret rawBody hdr toleranceSeconds now with
      | (.ok r, cost) => ⟨r, cost⟩
      | (.error m, cost) => ⟨⟨false, none, some m⟩, cost⟩

/-- Exceptions thrown by `Webhook::verify` (Webhook.php): a bare
`\RuntimeException` for a missing webhook secret and
`WebhookSignatureException` for every verification failure. -/
inductive PhpVerifyError where
  | runtimeException (msg : String)
  | webhookSignatureException (msg : String)

/-- A `Webhook::verify` run instrumented with the comparison-step count of
its `hash_equals` call (`0` when never reached). -/
structure PhpVerifyRun where
  result : Except PhpVerifyError Bool
  cmpCost : Nat

/-- `Webhook::verify($payload, $signatureHeader, $tolerance)` (Webhook.php):
throw on missing secret; parse the header; throw `WebhookSignatureException`
when `t` or `v1` is PHP-falsy, when `abs(time() - intval($t)) > $tolerance`,
or when `hash_equals(hash_hmac('sha256', $t . '.' . $payload, $secret), $v1)`
fails; return `true` otherwise.  Thrown exceptions are `.error` values. -/
def phpWebhookVerifyRun (hmac : String → String → String)
    (webhookSecret : Option String) (payload signatureHeader : String)
    (tolerance now : Int) : PhpVerifyRun :=
  match webhookSecret with
  | none => ⟨.error (.runtimeException "Webhook secret non configuré"), 0⟩
  | some secret =>
    let parts := phpParseSigHeader signatureHeader
    let timestamp := assocFind "t" parts
    let signature := assocFind "v1" parts
    if phpFalsyStr timestamp ∨ phpFalsyStr signature then
      ⟨.error (.webhookSignatureException
        "Format de signature invalide. Attendu: t=<timestamp>,v1=<signature>"), 0⟩
    else
      let t := timestamp.getD ""
      let s := signature.getD ""
      if tolerance < ((now - phpIntval t).natAbs : Int) then
        ⟨.error (.webhookSignatureException
          "Timestamp trop ancien, possible replay attack"), 0⟩
      else
        let expected := hmac secret (t ++ "." ++ payload)
        let cost := hashEqualsCost expected s
        if !hashEquals expected s then
          ⟨.error (.webhookSignatureException "Signature invalide"), cost⟩
        else ⟨.ok true, cost⟩

/-- Errors `Webhook::parse` / `WebhookEvent` can raise: the
`\InvalidArgumentException("Payload JSON invalide")` thrown by `parse` on a
falsy decode, and the `TypeError` PHP raises under `strict_types=1` when a
truthy non-array decode is passed to the `array $data` constructor or when
`getType(): string` would return a non-string value. -/
inductive PhpParseError where
  | invalidArgument (msg : String)
  | typeError

/-- The `WebhookEvent` wrapper (Webhook.php) around the decoded payload
array. -/
structure PhpWebhookEvent where
  data : Json

/-- `Webhook::parse($payload)` (Webhook.php): `json_decode($payload, true)`,
throw `InvalidArgumentException("Payload JSON invalide")` if the decode is
PHP-falsy (which covers syntax errors, where `json_decode` returns `null`),
then construct `WebhookEvent`. -/
def phpWebhookParse (payload : String) : Except PhpParseError PhpWebhookEvent :=
  match jsonDecode payload with
  | none => .error (.invalidArgument "Payload JSON invalide")
  | some v =>
    if phpFalsy v then .error (.invalidArgument "Payload JSON invalide")
    else if !phpIsArray v then .error .typeError
    else .ok ⟨v⟩

/-- The null-coalescing field access `$this->data[$k] ?? ...` on the decoded
payload array: an unset key and a stored PHP `null` (a decoded JSON `null`)
both fall through to the coalescing fallback.  A JSON list decodes to a
numeric-keyed PHP array, so a string-key access on it is unset. -/
def phpCoalesceField (k : String) : Json → Option Json
  | .obj fs =>
    match fs.lookup k with
    | some .null => none
    | some v => some v
    | none => none
  | _ => none

/-- `WebhookEvent::getType` (Webhook.php):
`return $this->data['event'] ?? $this->data['type'] ?? 'unknown';`, declared
with return type `string` under `declare(strict_types=1)`.  An unset or null
`event` falls back to `type`, then to the literal `'unknown'`.  When the
coalescing chain produces a non-string value — e.g. the reachable payload
`{"event":5}` — returning it from a `: string` function throws a `TypeError`,
modelled as the `.error .typeError` outcome. -/
def PhpWebhookEvent.getTypeRun (ev : PhpWebhookEvent) :
    Except PhpParseError String :=
  let v : Json :=
    match phpCoalesceField "event" ev.data with
    | some v => v
    | none =>
      match phpCoalesceField "type" ev.data with
      | some v => v
      | none => .str "unknown"
  match v with
  | .str s => .ok s
  | _ => .error .typeError

/-- Deterministic executable stand-in for the HMAC-SHA256 hex oracle, used to
instantiate witnesses: a 64-character lowercase-hex string computed from
secret and message by a toy accumulator.  Only its output shape (64 lowercase
hex characters, determined by both inputs) matters; no claim depends on
cryptographic properties of the digest function itself. -/
def hexChar (n : Nat) : Char :=
  if n < 10 then Char.ofNat (48 + n) else Char.ofNat (87 + n)

/-- Renders the low 256 bits of a number as 64 hex characters. -/
def toHex64 (h : Nat) : String :=
  String.mk ((List.range 64).map fun i => hexChar (h / 16 ^ (63 - i) % 16))

/-- The toy digest accumulator feeding `toHex64`. -/
def demoHmac (secret msg : String) : String :=
  toHex64 ((secret ++ ":" ++ msg).data.foldl
    (fun a c => (a * 131 + c.toNat + 17) % 2 ^ 256) 7)

/-- Successful `assocFind` results come from the list. -/
theorem assocFind_mem {k v : String} : ∀ {l : List (String × String)},
    assocFind k l = some v → (k, v) ∈ l := by
  intro l
  induction l with
  | nil => intro h; cases h
  | cons p rest ih =>
    intro h
    rcases p with ⟨k2, v2⟩
    by_cases hk : k = k2
    · simp only [assocFind, if_pos hk] at h
      cases h
      simp [hk]
    · simp only [assocFind, if_neg hk] at h
      exact List.mem_cons_of_mem _ (ih h)

/-- Every entry the `verifyWebhook` header parser stores has a non-empty key
and a non-empty value (the `if (key && value)` guard). -/
theorem jsParseSigHeader_entries_ne_empty (hdr : String) :
    ∀ p ∈ jsParseSigHeader hdr, p.1 ≠ "" ∧ p.2 ≠ "" := by
  unfold jsParseSigHeader
  generalize splitOnChar ',' hdr.data = pieces
  have step : ∀ (pieces : List (List Char)) (acc : List (String × String)),
      (∀ p ∈ acc, p.1 ≠ "" ∧ p.2 ≠ "") →
      ∀ p ∈ pieces.foldl
        (fun parts part =>
          match splitOnChar '=' part with
          | key :: value :: _ =>
            if key ≠ [] ∧ value ≠ [] then
              (String.mk key, String.mk value) :: parts
            else parts
          | _ => parts) acc, p.1 ≠ "" ∧ p.2 ≠ "" := by
    intro pieces
    induction pieces with
    | nil => intro acc hacc p hp; exact hacc p hp
    | cons piece rest ih =>
      intro acc hacc p hp
      refine ih _ ?_ p hp
      intro q hq
      rcases hsplit : splitOnChar '=' piece with _ | ⟨key, _ | ⟨value, more⟩⟩ <;>
        simp only [hsplit] at hq
      · exact hacc q hq
      · exact hacc q hq
      · by_cases hkv : key ≠ [] ∧ value ≠ []
        · rw [if_pos hkv] at hq
          rcases List.mem_cons.mp hq with hq | hq
          · subst hq
            refine ⟨?_, ?_⟩ <;> simp [String.ext_iff, hkv.1, hkv.2]
          · exact hacc q hq
        · rw [if_neg hkv] at hq
          exact hacc q hq
  exact step pieces [] (by intro p hp; cases hp)

/-- Values looked up from the merchant header parser are non-empty strings. -/
theorem jsParseSigHeader_value_ne_empty {hdr k v : String}
    (h : assocFind k (jsParseSigHeader hdr) = some v) : v ≠ "" :=
  (jsParseSigHeader_entries_ne_empty hdr (k, v) (assocFind_mem h)).2

/-- Claim C9: for every declared payment method and every declared capability
type, the matrix access `self::MATRIX[$method][$capability]` hits an
explicitly declared boolean, and `Capabilities::has` returns exactly that
declared value — the `?? false` default is never exercised on declared
pairs, so `has` cannot throw or yield an undefined value there. -/
theorem capabilities_matrix_complete :
    ∀ m c, m ∈ Capabilities.PAYMENT_METHODS → c ∈ Capabilities.CAPABILITY_TYPES →
      ∃ b, Capabilities.matrixLookup m c = some b ∧ Capabilities.has m c = b := by
  intro m c hm hc
  have H : Capabilities.PAYMENT_METHODS.all
      (fun m => Capabilities.CAPABILITY_TYPES.all
        (fun c => (Capabilities.matrixLookup m c).isSome)) = true := by decide
  have h1 := List.all_eq_true.mp H m hm
  have h2 := List.all_eq_true.mp h1 c hc
  rcases Option.isSome_iff_exists.mp h2 with ⟨b, hb⟩
  exact ⟨b, hb, by simp [Capabilities.has, hb]⟩

/-- Witness for C9 at the concrete pair `("ORANGE_MONEY", "payments")`. -/
theorem capabilities_matrix_complete_witness :
    "ORANGE_MONEY" ∈ Capabilities.PAYMENT_METHODS ∧
    "payments" ∈ Capabilities.CAPABILITY_TYPES ∧
    ∃ b, Capabilities.matrixLookup "ORANGE_MONEY" "payments" = some b ∧
      Capabilities.has "ORANGE_MONEY" "payments" = b :=
  ⟨by decide, by decide,
    capabilities_matrix_complete "ORANGE_MONEY" "payments" (by decide) (by decide)⟩

/-- Membership in the row-collecting filter implies a declared truthy row
entry, provided the row keys are distinct. -/
theorem mem_capability_filter {rows : List (String × List (String × Bool))}
    {c m : String} (hnd : (rows.map Prod.fst).Nodup)
    (hm : m ∈ rows.filterMap fun p =>
      if (p.2.lookup c).getD false then some p.1 else none) :
    ∃ row, rows.lookup m = some row ∧ (row.lookup c).getD false = true := by
  induction rows with
  | nil => cases hm
  | cons q rest ih =>
    rcases q with ⟨k, caps⟩
    rcases List.mem_filterMap.mp hm with ⟨p, hp, hf⟩
    rcases List.mem_cons.mp hp with hp | hp
    · subst hp
      simp only at hf
      by_cases hcap : (caps.lookup c).getD false
      · rw [if_pos hcap] at hf
        cases hf
        exact ⟨caps, by simp [List.lookup], hcap⟩
      · rw [if_neg hcap] at hf
        cases hf
    · have hmk : m = p.1 := by
        by_cases hcap : (p.2.lookup c).getD false
        · rw [if_pos hcap] at hf; cases hf; rfl
        · rw [if_neg hcap] at hf; cases hf
      have hmem : m ∈ rest.map Prod.fst := by
        rw [hmk]; exact List.mem_map_of_mem _ hp
      have hne : m ≠ k := by
        intro he
        have : k ∈ rest.map Prod.fst := he ▸ hmem
        exact (List.nodup_cons.mp hnd).1 this
      have htail : m ∈ rest.filterMap fun p =>
          if (p.2.lookup c).getD false then some p.1 else none :=
        List.mem_filterMap.mpr ⟨p, hp, hf⟩
      rcases ih (List.nodup_cons.mp hnd).2 htail with ⟨row, hrow, hcap⟩
      refine ⟨row, ?_, hcap⟩
      simpa [List.lookup, beq_eq_false_iff_ne.mpr hne] using hrow

/-- Claim C10: `Capabilities::has` is total with a silent `false` default —
an unset nested index yields `false`, any undeclared method yields `false`,
and conversely every method reported by
`Capabilities::getMethodsWithCapability` really has the capability. -/
theorem capabilities_has_total_default_false :
    (∀ m c, Capabilities.matrixLookup m c = none → Capabilities.has m c = false) ∧
    (∀ m c, m ∉ Capabilities.PAYMENT_METHODS → Capabilities.has m c = false) ∧
    (∀ c m, m ∈ Capabilities.getMethodsWithCapability c →
      Capabilities.has m c = true) := by
  refine ⟨?_, ?_, ?_⟩
  · intro m c h
    simp [Capabilities.has, h]
  · intro m c hm
    simp only [Capabilities.PAYMENT_METHODS, List.mem_cons, not_or,
      List.not_mem_nil] at hm
    obtain ⟨h1, h2, h3, h4, h5, h6, h7, -⟩ := hm
    simp [Capabilities.has, Capabilities.matrixLookup, Capabilities.MATRIX,
      List.lookup, beq_eq_false_iff_ne.mpr h1, beq_eq_false_iff_ne.mpr h2,
      beq_eq_false_iff_ne.mpr h3, beq_eq_false_iff_ne.mpr h4,
      beq_eq_false_iff_ne.mpr h5, beq_eq_false_iff_ne.mpr h6,
      beq_eq_false_iff_ne.mpr h7]
  · intro c m hm
    have hnd : (Capabilities.MATRIX.map Prod.fst).Nodup := by decide
    rcases mem_capability_filter hnd hm with ⟨row, hrow, hcap⟩
    simp [Capabilities.has, Capabilities.matrixLookup, hrow, hcap]

/-- Witness for C10: the undeclared method `"BITCOIN"` silently reports
`false` for the `"payments"` capability. -/
theorem capabilities_has_total_default_false_witness :
    "BITCOIN" ∉ Capabilities.PAYMENT_METHODS ∧
    Capabilities.has "BITCOIN" "payments" = false :=
  ⟨by decide,
    capabilities_has_total_default_false.2.1 "BITCOIN" "payments" (by decide)⟩

/-- Counterexample to claim C7: the body `"[]"` is syntactically valid JSON
(`json_decode` yields the empty array), yet `Webhook::parse` rejects it with
the malformed-JSON error, because the guard `if (!$data)` tests PHP
truthiness, not decode success — so "fails exactly when the body is not
syntactically valid JSON" is false. -/
theorem php_parse_rejects_valid_json_counterexample :
    jsonDecode "[]" = some (Json.arr []) ∧
    phpWebhookParse "[]" = .error (.invalidArgument "Payload JSON invalide") :=
  ⟨rfl, rfl⟩

/-- Claim C7 as amended: `Webhook::parse` raises the malformed-JSON error
whenever `json_decode` fails (syntax error) and also on syntactically valid
bodies whose decode is PHP-falsy (`null`, `false`, `0`, `""`, `"0"`, `[]`,
and the empty object); every body decoding to a truthy array is accepted.
An unrecognized event type that is a string is surfaced verbatim by
`WebhookEvent::getType`, and an unset or null `event`/`type` degrades to the
generic `'unknown'` — never a rejection; but a non-string `event` value
(for example the payload `{"event":5}`, which `parse` accepts) makes
`getType(): string` throw a `TypeError` under `strict_types=1`. -/
theorem php_parse_falsy_decode_behaviour :
    (∀ s, jsonDecode s = none →
      phpWebhookParse s = .error (.invalidArgument "Payload JSON invalide")) ∧
    (∀ s v, jsonDecode s = some v → phpFalsy v = true →
      phpWebhookParse s = .error (.invalidArgument "Payload JSON invalide")) ∧
    (∀ s v, jsonDecode s = some v → phpFalsy v = false → phpIsArray v = true →
      ∃ ev, phpWebhookParse s = .ok ev ∧ ev.data = v) ∧
    (∀ (ev : PhpWebhookEvent) (s : String),
      phpCoalesceField "event" ev.data = some (.str s) →
      ev.getTypeRun = .ok s) ∧
    (∀ ev : PhpWebhookEvent, phpCoalesceField "event" ev.data = none →
      phpCoalesceField "type" ev.data = none →
      ev.getTypeRun = .ok "unknown") ∧
    (∀ (ev : PhpWebhookEvent) (v : Json),
      phpCoalesceField "event" ev.data = some v → (∀ s, v ≠ .str s) →
      ev.getTypeRun = .error .typeError) := by
  refine ⟨?_, ?_, ?_, ?_, ?_, ?_⟩
  · intro s h
    simp [phpWebhookParse, h]
  · intro s v h hf
    simp [phpWebhookParse, h, hf]
  · intro s v h hf ha
    exact ⟨⟨v⟩, by simp [phpWebhookParse, h, hf, ha], rfl⟩
  · intro ev s h
    simp [PhpWebhookEvent.getTypeRun, h]
  · intro ev h1 h2
    simp [PhpWebhookEvent.getTypeRun, h1, h2]
  · intro ev v h hns
    unfold PhpWebhookEvent.getTypeRun
    rw [h]
    dsimp only
    cases v with
    | null => rfl
    | bool b => rfl
    | num m e => rfl
    | str s => exact absurd rfl (hns s)
    | arr xs => rfl
    | obj fs => rfl

/-- Witness for the amended C7: an unparseable body is rejected; the
unrecognized string event type `"weird.event.v9"` is accepted and surfaced
verbatim; a body with no event field degrades to `'unknown'`; and the
parse-accepted payload with the numeric event value `5` makes `getType`
throw the `TypeError`. -/
theorem php_parse_falsy_decode_behaviour_witness :
    (jsonDecode "not json" = none ∧
      phpWebhookParse "not json"
        = .error (.invalidArgument "Payload JSON invalide")) ∧
    (∃ ev, phpWebhookParse "\x7b\"event\":\"weird.event.v9\"\x7d" = .ok ev ∧
      ev.data = Json.obj [("event", Json.str "weird.event.v9")]) ∧
    (PhpWebhookEvent.mk
        (Json.obj [("event", Json.str "weird.event.v9")])).getTypeRun
      = .ok "weird.event.v9" ∧
    (PhpWebhookEvent.mk (Json.obj [("x", Json.num 1 0)])).getTypeRun
      = .ok "unknown" ∧
    phpWebhookParse "\x7b\"event\":5\x7d"
      = .ok (PhpWebhookEvent.mk (Json.obj [("event", Json.num 5 0)])) ∧
    (PhpWebhookEvent.mk (Json.obj [("event", Json.num 5 0)])).getTypeRun
      = .error .typeError := by
  refine ⟨⟨rfl, php_parse_falsy_decode_behaviour.1 "not json" rfl⟩,
    php_parse_falsy_decode_behaviour.2.2.1 "\x7b\"event\":\"weird.event.v9\"\x7d"
      (Json.obj [("event", Json.str "weird.event.v9")]) rfl rfl rfl,
    php_parse_falsy_decode_behaviour.2.2.2.1
      (PhpWebhookEvent.mk (Json.obj [("event", Json.str "weird.event.v9")]))
      "weird.event.v9" rfl,
    php_parse_falsy_decode_behaviour.2.2.2.2.1
      (PhpWebhookEvent.mk (Json.obj [("x", Json.num 1 0)])) rfl rfl,
    ?_,
    php_parse_falsy_decode_behaviour.2.2.2.2.2
      (PhpWebhookEvent.mk (Json.obj [("event", Json.num 5 0)]))
      (Json.num 5 0) rfl (fun s h => Json.noConfusion h)⟩
  rcases php_parse_falsy_decode_behaviour.2.2.1 "\x7b\"event\":5\x7d"
      (Json.obj [("event", Json.num 5 0)]) rfl rfl rfl with ⟨ev, hok, hdata⟩
  rw [hok]
  cases ev
  cases hdata
  rfl

/-- Counterexample to claim C2: a bare 64-character signature header with no
timestamp is accepted by `SahelPayMerchant.verifyWebhook` in its only
configuration — `MerchantConfig` has no flag that enables or disables the
legacy fallback, so the "rejected when not explicitly enabled" half of the
claim fails (the fallback is unconditionally active).  The header here parses
to neither `t` nor `v1`, has length 64, and equals the correct
`HMAC(secret, rawBody)` digest. -/
theorem legacy_fallback_accepted_unconfigured_counterexample :
    assocFind "t" (jsParseSigHeader (demoHmac "whsec_test" "\x7b\"a\":1\x7d")) = none ∧
    assocFind "v1" (jsParseSigHeader (demoHmac "whsec_test" "\x7b\"a\":1\x7d")) = none ∧
    (demoHmac "whsec_test" "\x7b\"a\":1\x7d").length = 64 ∧
    (verifyWebhookRun demoHmac (some "whsec_test") "\x7b\"a\":1\x7d"
      (some (demoHmac "whsec_test" "\x7b\"a\":1\x7d")) 300 1000).result.valid = true :=
  ⟨rfl, rfl, rfl, rfl⟩

/-- Claim C2 as amended: the legacy fallback is unconditionally enabled.  For
every raw body and every 64-character header in which the parser finds
neither `t` nor `v1`, `verifyWebhook` accepts exactly when the header equals
`HMAC-SHA256(secret, rawBody)` (compared with the same constant-time
comparison) and the body parses as JSON; no configuration can turn the
fallback off, and it performs no timestamp (replay) check. -/
theorem legacy_fallback_unconditional (hmac : String → String → String)
    (secret rawBody hdr : String) (tol now : Int)
    (ht : assocFind "t" (jsParseSigHeader hdr) = none)
    (hv : assocFind "v1" (jsParseSigHeader hdr) = none)
    (hlen : hdr.length = 64) :
    (verifyWebhookRun hmac (some secret) rawBody (some hdr) tol now).result.valid = true
      ↔ (hdr = hmac secret rawBody ∧ (jsonDecode rawBody).isSome = true) := by
  have hcond : jsFalsyStr (assocFind "t" (jsParseSigHeader hdr))
      ∧ jsFalsyStr (assocFind "v1" (jsParseSigHeader hdr))
      ∧ hdr.length = 64 := by
    rw [ht, hv]; exact ⟨rfl, rfl, hlen⟩
  unfold verifyWebhookRun verifyWebhookTry
  dsimp only
  rw [if_pos hcond]
  by_cases heq : hdr = hmac secret rawBody
  · have hlen2 : hdr.length = (hmac secret rawBody).length := by rw [heq]
    rw [timingSafeEqual, if_pos hlen2]
    have : (hdr == hmac secret rawBody) = true := beq_iff_eq.mpr heq
    rw [this]
    cases hjson : jsonDecode rawBody with
    | none => simp [heq, hjson]
    | some v => simp [heq, hjson]
  · constructor
    · intro hvalid
      exfalso
      rw [timingSafeEqual] at hvalid
      by_cases hlen2 : hdr.length = (hmac secret rawBody).length
      · rw [if_pos hlen2] at hvalid
        have : (hdr == hmac secret rawBody) = false := beq_eq_false_iff_ne.mpr heq
        rw [this] at hvalid
        simp at hvalid
      · rw [if_neg hlen2] at hvalid
        simp at hvalid
    · intro h
      exact absurd h.1 heq

/-- Witness for the amended C2, at the concrete secret `"whsec_test"` and
body `\x7b"a":1\x7d`: the correct bare legacy digest is accepted. -/
theorem legacy_fallback_unconditional_witness :
    (verifyWebhookRun demoHmac (some "whsec_test") "\x7b\"a\":1\x7d"
      (some (demoHmac "whsec_test" "\x7b\"a\":1\x7d")) 300 1000).result.valid = true :=
  (legacy_fallback_unconditional demoHmac "whsec_test" "\x7b\"a\":1\x7d"
      (demoHmac "whsec_test" "\x7b\"a\":1\x7d") 300 1000 rfl rfl rfl).mpr
    ⟨rfl, rfl⟩

/-- On the timestamped path, a stale timestamp makes `verifyWebhook` return
the replay-protection error before any signature comparison. -/
theorem verifyWebhookRun_stale (hmac : String → String → String)
    (secret rawBody hdr : String) (tol now : Int) (t s : String)
    (ht : assocFind "t" (jsParseSigHeader hdr) = some t)
    (hv : assocFind "v1" (jsParseSigHeader hdr) = some s)
    (hstale : (match parseIntJS t with
      | none => false
      | some tn => decide (tol < ((now - tn).natAbs : Int))) = true) :
    verifyWebhookRun hmac (some secret) rawBody (some hdr) tol now
      = ⟨⟨false, none, some "Timestamp too old, possible replay attack"⟩, 0⟩ := by
  have htne : t ≠ "" := jsParseSigHeader_value_ne_empty ht
  have hsne : s ≠ "" := jsParseSigHeader_value_ne_empty hv
  have hft : jsFalsyStr (some t) = false := by simp [jsFalsyStr, htne]
  have hfs : jsFalsyStr (some s) = false := by simp [jsFalsyStr, hsne]
  unfold verifyWebhookRun verifyWebhookTry
  dsimp only
  rw [ht, hv, if_neg (by rw [hft]; intro h; cases h.1),
    if_neg (by rw [hft, hfs]; intro h; rcases h with h | h <;> cases h)]
  simp only [Option.getD_some]
  rw [if_pos hstale]

/-- On the timestamped path with a fresh timestamp, the comparison work
`verifyWebhook` performs is exactly `timingSafeEqualCost` of the supplied
`v1` against the expected digest. -/
theorem verifyWebhookRun_cost (hmac : String → String → String)
    (secret rawBody hdr : String) (tol now : Int) (t s : String)
    (ht : assocFind "t" (jsParseSigHeader hdr) = some t)
    (hv : assocFind "v1" (jsParseSigHeader hdr) = some s)
    (hfresh : (match parseIntJS t with
      | none => false
      | some tn => decide (tol < ((now - tn).natAbs : Int))) = false) :
    (verifyWebhookRun hmac (some secret) rawBody (some hdr) tol now).cmpCost
      = timingSafeEqualCost s (hmac secret (t ++ "." ++ rawBody)) := by
  have htne : t ≠ "" := jsParseSigHeader_value_ne_empty ht
  have hsne : s ≠ "" := jsParseSigHeader_value_ne_empty hv
  have hft : jsFalsyStr (some t) = false := by simp [jsFalsyStr, htne]
  have hfs : jsFalsyStr (some s) = false := by simp [jsFalsyStr, hsne]
  unfold verifyWebhookRun verifyWebhookTry
  dsimp only
  rw [ht, hv, if_neg (by rw [hft]; intro h; cases h.1),
    if_neg (by rw [hft, hfs]; intro h; rcases h with h | h <;> cases h)]
  simp only [Option.getD_some]
  rw [if_neg (by rw [hfresh]; intro h; cases h)]
  cases hcmp : timingSafeEqual s (hmac secret (t ++ "." ++ rawBody)) with
  | error e => rfl
  | ok eq =>
    cases eq with
    | true =>
      cases hjson : jsonDecode rawBody with
      | none => rfl
      | some v => rfl
    | false => rfl

/-- `Webhook::verify` throws the replay-protection exception on a stale
timestamp before any signature comparison. -/
theorem phpWebhookVerifyRun_stale (hmac : String → String → String)
    (secret payload hdr : String) (tol now : Int) (t s : String)
    (ht : assocFind "t" (phpParseSigHeader hdr) = some t)
    (hv : assocFind "v1" (phpParseSigHeader hdr) = some s)
    (hft : phpFalsyStr (some t) = false) (hfs : phpFalsyStr (some s) = false)
    (hstale : tol < ((now - phpIntval t).natAbs : Int)) :
    phpWebhookVerifyRun hmac (some secret) payload hdr tol now
      = ⟨.error (.webhookSignatureException
          "Timestamp trop ancien, possible replay attack"), 0⟩ := by
  unfold phpWebhookVerifyRun
  dsimp only
  rw [ht, hv,
    if_neg (by rw [hft, hfs]; intro h; rcases h with h | h <;> cases h)]
  simp only [Option.getD_some]
  rw [if_pos hstale]

/-- With a fresh timestamp, the comparison work `Webhook::verify` performs is
exactly `hashEqualsCost` of the expected digest against the supplied `v1`. -/
theorem phpWebhookVerifyRun_cost (hmac : String → String → String)
    (secret payload hdr : String) (tol now : Int) (t s : String)
    (ht : assocFind "t" (phpParseSigHeader hdr) = some t)
    (hv : assocFind "v1" (phpParseSigHeader hdr) = some s)
    (hft : phpFalsyStr (some t) = false) (hfs : phpFalsyStr (some s) = false)
    (hfresh : ¬tol < ((now - phpIntval t).natAbs : Int)) :
    (phpWebhookVerifyRun hmac (some secret) payload hdr tol now).cmpCost
      = hashEqualsCost (hmac secret (t ++ "." ++ payload)) s := by
  unfold phpWebhookVerifyRun
  dsimp only
  rw [ht, hv,
    if_neg (by rw [hft, hfs]; intro h; rcases h with h | h <;> cases h)]
  simp only [Option.getD_some]
  rw [if_neg hfresh]
  cases hb : hashEquals (hmac secret (t ++ "." ++ payload)) s <;> rfl

/-- Claim C3: in every verification that reaches the `v1` comparison of a
timestamped `t=...,v1=...` header, both `SahelPayMerchant.verifyWebhook`
(Node `crypto.timingSafeEqual`) and `Webhook::verify` (PHP `hash_equals`)
perform an amount of comparison work that depends only on the length of the
supplied `v1`, never on its content — the constant-time property; a
short-circuiting string compare would stop at the first mismatching
character.  Stated as a two-run hyperproperty: two headers carrying the same
timestamp and equal-length signature values induce identical comparison
costs. -/
theorem timestamped_compare_constant_time :
    (∀ (hmac : String → String → String) (secret body hdr1 hdr2 t s1 s2 : String)
      (tol now : Int),
      assocFind "t" (jsParseSigHeader hdr1) = some t →
      assocFind "v1" (jsParseSigHeader hdr1) = some s1 →
      assocFind "t" (jsParseSigHeader hdr2) = some t →
      assocFind "v1" (jsParseSigHeader hdr2) = some s2 →
      s1.length = s2.length →
      (verifyWebhookRun hmac (some secret) body (some hdr1) tol now).cmpCost
        = (verifyWebhookRun hmac (some secret) body (some hdr2) tol now).cmpCost) ∧
    (∀ (hmac : String → String → String) (secret body hdr1 hdr2 t s1 s2 : String)
      (tol now : Int),
      assocFind "t" (phpParseSigHeader hdr1) = some t →
      assocFind "v1" (phpParseSigHeader hdr1) = some s1 →
      assocFind "t" (phpParseSigHeader hdr2) = some t →
      assocFind "v1" (phpParseSigHeader hdr2) = some s2 →
      phpFalsyStr (some t) = false →
      phpFalsyStr (some s1) = false → phpFalsyStr (some s2) = false →
      s1.length = s2.length →
      (phpWebhookVerifyRun hmac (some secret) body hdr1 tol now).cmpCost
        = (phpWebhookVerifyRun hmac (some secret) body hdr2 tol now).cmpCost) := by
  constructor
  · intro hmac secret body hdr1 hdr2 t s1 s2 tol now ht1 hv1 ht2 hv2 hlen
    by_cases hstale : (match parseIntJS t with
      | none => false
      | some tn => decide (tol < ((now - tn).natAbs : Int))) = true
    · rw [verifyWebhookRun_stale hmac secret body hdr1 tol now t s1 ht1 hv1 hstale,
        verifyWebhookRun_stale hmac secret body hdr2 tol now t s2 ht2 hv2 hstale]
    · have hfresh := Bool.eq_false_iff.mpr hstale
      rw [verifyWebhookRun_cost hmac secret body hdr1 tol now t s1 ht1 hv1 hfresh,
        verifyWebhookRun_cost hmac secret body hdr2 tol now t s2 ht2 hv2 hfresh]
      simp [timingSafeEqualCost, hlen]
  · intro hmac secret body hdr1 hdr2 t s1 s2 tol now ht1 hv1 ht2 hv2 hft hfs1 hfs2 hlen
    by_cases hstale : tol < ((now - phpIntval t).natAbs : Int)
    · rw [phpWebhookVerifyRun_stale hmac secret body hdr1 tol now t s1 ht1 hv1 hft hfs1 hstale,
        phpWebhookVerifyRun_stale hmac secret body hdr2 tol now t s2 ht2 hv2 hft hfs2 hstale]
    · rw [phpWebhookVerifyRun_cost hmac secret body hdr1 tol now t s1 ht1 hv1 hft hfs1 hstale,
        phpWebhookVerifyRun_cost hmac secret body hdr2 tol now t s2 ht2 hv2 hft hfs2 hstale]
      simp [hashEqualsCost, hlen]

/-- Witness for C3: two concrete headers sharing the timestamp `100` but with
different equal-length signature values induce identical comparison costs in
both verifiers. -/
theorem timestamped_compare_constant_time_witness :
    ((verifyWebhookRun demoHmac (some "whsec_test") "\x7b\"a\":1\x7d"
        (some "t=100,v1=aaaa") 300 150).cmpCost
      = (verifyWebhookRun demoHmac (some "whsec_test") "\x7b\"a\":1\x7d"
        (some "t=100,v1=abcd") 300 150).cmpCost) ∧
    ((phpWebhookVerifyRun demoHmac (some "whsec_test") "\x7b\"a\":1\x7d"
        "t=100,v1=aaaa" 300 150).cmpCost
      = (phpWebhookVerifyRun demoHmac (some "whsec_test") "\x7b\"a\":1\x7d"
        "t=100,v1=abcd" 300 150).cmpCost) :=
  ⟨timestamped_compare_constant_time.1 demoHmac "whsec_test" "\x7b\"a\":1\x7d"
      "t=100,v1=aaaa" "t=100,v1=abcd" "100" "aaaa" "abcd" 300 150
      rfl rfl rfl rfl rfl,
    timestamped_compare_constant_time.2 demoHmac "whsec_test" "\x7b\"a\":1\x7d"
      "t=100,v1=aaaa" "t=100,v1=abcd" "100" "aaaa" "abcd" 300 150
      rfl rfl rfl rfl rfl rfl rfl rfl⟩

/-- Claim C4: when the parsed header timestamp is outside the tolerance
window (`abs(now - t) > toleranceSeconds`), both verifiers reject with the
stale-timestamp error for every supplied `v1` — in particular for the
correctly computed HMAC over `t . rawBody`, since the freshness check runs
before any signature comparison. -/
theorem stale_timestamp_rejected :
    (∀ (hmac : String → String → String) (secret body hdr t s : String)
      (tol now : Int),
      assocFind "t" (jsParseSigHeader hdr) = some t →
      assocFind "v1" (jsParseSigHeader hdr) = some s →
      (∃ tn, parseIntJS t = some tn ∧ tol < ((now - tn).natAbs : Int)) →
      (verifyWebhookRun hmac (some secret) body (some hdr) tol now).result
        = ⟨false, none, some "Timestamp too old, possible replay attack"⟩) ∧
    (∀ (hmac : String → String → String) (secret body hdr t s : String)
      (tol now : Int),
      assocFind "t" (phpParseSigHeader hdr) = some t →
      assocFind "v1" (phpParseSigHeader hdr) = some s →
      phpFalsyStr (some t) = false → phpFalsyStr (some s) = false →
      tol < ((now - phpIntval t).natAbs : Int) →
      (phpWebhookVerifyRun hmac (some secret) body hdr tol now).result
        = .error (.webhookSignatureException
            "Timestamp trop ancien, possible replay attack")) := by
  constructor
  · intro hmac secret body hdr t s tol now ht hv hstale
    rcases hstale with ⟨tn, htn, hlt⟩
    have hm : (match parseIntJS t with
        | none => false
        | some tn => decide (tol < ((now - tn).natAbs : Int))) = true := by
      rw [htn]
      exact decide_eq_true hlt
    rw [verifyWebhookRun_stale hmac secret body hdr tol now t s ht hv hm]
  · intro hmac secret body hdr t s tol now ht hv hft hfs hlt
    rw [phpWebhookVerifyRun_stale hmac secret body hdr tol now t s ht hv hft hfs hlt]

/-- Witness for C4: a header carrying timestamp `100` and the correctly
computed digest over `"100." ++ body` is still rejected as stale at
`now = 100000` with tolerance `300`, in both verifiers. -/
theorem stale_timestamp_rejected_witness :
    ((verifyWebhookRun demoHmac (some "whsec_test") "\x7b\"a\":1\x7d"
        (some ("t=100,v1=" ++ demoHmac "whsec_test" ("100." ++ "\x7b\"a\":1\x7d")))
        300 100000).result
      = ⟨false, none, some "Timestamp too old, possible replay attack"⟩) ∧
    ((phpWebhookVerifyRun demoHmac (some "whsec_test") "\x7b\"a\":1\x7d"
        ("t=100,v1=" ++ demoHmac "whsec_test" ("100." ++ "\x7b\"a\":1\x7d"))
        300 100000).result
      = .error (.webhookSignatureException
          "Timestamp trop ancien, possible replay attack")) :=
  ⟨stale_timestamp_rejected.1 demoHmac "whsec_test" "\x7b\"a\":1\x7d"
      ("t=100,v1=" ++ demoHmac "whsec_test" ("100." ++ "\x7b\"a\":1\x7d"))
      "100" (demoHmac "whsec_test" ("100." ++ "\x7b\"a\":1\x7d")) 300 100000
      rfl rfl ⟨100, rfl, by decide⟩,
    stale_timestamp_rejected.2 demoHmac "whsec_test" "\x7b\"a\":1\x7d"
      ("t=100,v1=" ++ demoHmac "whsec_test" ("100." ++ "\x7b\"a\":1\x7d"))
      "100" (demoHmac "whsec_test" ("100." ++ "\x7b\"a\":1\x7d")) 300 100000
      rfl rfl rfl rfl (by decide)⟩

/-- Counterexample to claim C5: for the untrusted (malformed) signature
header `"garbage"`, `Webhook::verify` does not return a typed error value —
it throws a `WebhookSignatureException` (modelled as the `.error`
constructor), using an exception as control flow for an expected untrusted
input. -/
theorem php_verify_throws_counterexample :
    (phpWebhookVerifyRun demoHmac (some "whsec_test") "\x7b\"a\":1\x7d"
        "garbage" 300 1000).result
      = .error (.webhookSignatureException
          "Format de signature invalide. Attendu: t=<timestamp>,v1=<signature>") :=
  rfl

/-- Claim C5 as amended (merchant half): `SahelPayMerchant.verifyWebhook`
returns a typed result for every input — internal throws (buffer-length
mismatches in `timingSafeEqual`, `JSON.parse` failures) are caught and folded
into `{ valid: false, error: message }`, so every rejection carries an error
message and no exception escapes. -/
theorem merchant_verify_always_returns (hmac : String → String → String)
    (webhookSecret : Option String) (body : String) (sig : Option String)
    (tol now : Int) :
    (verifyWebhookRun hmac webhookSecret body sig tol now).result.valid = true ∨
    ((verifyWebhookRun hmac webhookSecret body sig tol now).result.valid = false ∧
      (verifyWebhookRun hmac webhookSecret body sig tol now).result.error.isSome
        = true) := by
  cases webhookSecret with
  | none => exact Or.inr ⟨rfl, rfl⟩
  | some secret =>
    cases sig with
    | none => exact Or.inr ⟨rfl, rfl⟩
    | some hdr =>
      unfold verifyWebhookRun verifyWebhookTry
      dsimp only
      by_cases h1 : jsFalsyStr (assocFind "t" (jsParseSigHeader hdr)) = true ∧
          jsFalsyStr (assocFind "v1" (jsParseSigHeader hdr)) = true ∧
          hdr.length = 64
      · rw [if_pos h1]
        cases timingSafeEqual hdr (hmac secret body) with
        | error e => exact Or.inr ⟨rfl, rfl⟩
        | ok eq =>
          cases eq with
          | false => exact Or.inr ⟨rfl, rfl⟩
          | true =>
            cases jsonDecode body with
            | none => exact Or.inr ⟨rfl, rfl⟩
            | some v => exact Or.inl rfl
      · rw [if_neg h1]
        by_cases h2 : jsFalsyStr (assocFind "t" (jsParseSigHeader hdr)) = true ∨
            jsFalsyStr (assocFind "v1" (jsParseSigHeader hdr)) = true
        · rw [if_pos h2]
          exact Or.inr ⟨rfl, rfl⟩
        · rw [if_neg h2]
          by_cases h3 : (match parseIntJS
                ((assocFind "t" (jsParseSigHeader hdr)).getD "") with
              | none => false
              | some tn => decide (tol < ((now - tn).natAbs : Int))) = true
          · rw [if_pos h3]
            exact Or.inr ⟨rfl, rfl⟩
          · rw [if_neg h3]
            cases timingSafeEqual ((assocFind "v1" (jsParseSigHeader hdr)).getD "")
                (hmac secret
                  ((assocFind "t" (jsParseSigHeader hdr)).getD "" ++ "." ++ body)) with
            | error e => exact Or.inr ⟨rfl, rfl⟩
            | ok eq =>
              cases eq with
              | false => exact Or.inr ⟨rfl, rfl⟩
              | true =>
                cases jsonDecode body with
                | none => exact Or.inr ⟨rfl, rfl⟩
                | some v => exact Or.inl rfl

/-- Claim C5 as amended: the two implementations differ in error discipline.
`SahelPayMerchant.verifyWebhook` returns a typed result value for every
untrusted input (every rejection carries an error message, no exception
escapes), while `Webhook::verify` signals expected failures by throwing a
typed `WebhookSignatureException` — shown here for every header whose parsed
`t` or `v1` is missing or falsy. -/
theorem verify_error_discipline :
    (∀ (hmac : String → String → String) (webhookSecret : Option String)
      (body : String) (sig : Option String) (tol now : Int),
      (verifyWebhookRun hmac webhookSecret body sig tol now).result.valid = true ∨
      ((verifyWebhookRun hmac webhookSecret body sig tol now).result.valid = false ∧
        (verifyWebhookRun hmac webhookSecret body sig tol now).result.error.isSome
          = true)) ∧
    (∀ (hmac : String → String → String) (secret body hdr : String) (tol now : Int),
      (phpFalsyStr (assocFind "t" (phpParseSigHeader hdr)) = true ∨
        phpFalsyStr (assocFind "v1" (phpParseSigHeader hdr)) = true) →
      (phpWebhookVerifyRun hmac (some secret) body hdr tol now).result
        = .error (.webhookSignatureException
            "Format de signature invalide. Attendu: t=<timestamp>,v1=<signature>")) := by
  constructor
  · exact merchant_verify_always_returns
  · intro hmac secret body hdr tol now h
    unfold phpWebhookVerifyRun
    dsimp only
    rw [if_pos h]

/-- Witness for the amended C5: the merchant verifier returns a typed failure
for the garbage header, while the PHP verifier throws for it. -/
theorem verify_error_discipline_witness :
    ((verifyWebhookRun demoHmac (some "whsec_test") "\x7b\"a\":1\x7d"
        (some "garbage") 300 1000).result.valid = true ∨
      ((verifyWebhookRun demoHmac (some "whsec_test") "\x7b\"a\":1\x7d"
        (some "garbage") 300 1000).result.valid = false ∧
        (verifyWebhookRun demoHmac (some "whsec_test") "\x7b\"a\":1\x7d"
          (some "garbage") 300 1000).result.error.isSome = true)) ∧
    ((phpWebhookVerifyRun demoHmac (some "whsec_test") "\x7b\"a\":1\x7d"
        "garbage" 300 1000).result
      = .error (.webhookSignatureException
          "Format de signature invalide. Attendu: t=<timestamp>,v1=<signature>")) :=
  ⟨verify_error_discipline.1 demoHmac (some "whsec_test") "\x7b\"a\":1\x7d"
      (some "garbage") 300 1000,
    verify_error_discipline.2 demoHmac "whsec_test" "\x7b\"a\":1\x7d"
      "garbage" 300 1000 (Or.inl rfl)⟩

/-- If a poll run resolves with an item, some status check returned that item
together with a status from the loop's terminal list. -/
theorem pollAux_resolved_sound {π : Type} (T : List String)
    (check : Nat → CheckResult π) (timeout : Nat) :
    ∀ (fuel k elapsed delay : Nat) (log : List (String × π)) (p : π),
      (pollAux T check timeout fuel k elapsed delay log).outcome
        = PollOutcome.resolved p →
      ∃ i s, check i = .ok s p ∧ T.contains s = true := by
  intro fuel
  induction fuel with
  | zero =>
    intro k e d log p h
    simp [pollAux] at h
  | succ fuel ih =>
    intro k e d log p h
    rw [pollAux] at h
    cases hc : check k with
    | ok status item =>
      rw [hc] at h
      dsimp only at h
      by_cases hterm : T.contains status = true
      · rw [if_pos hterm] at h
        dsimp only at h
        cases h
        exact ⟨k, status, hc, hterm⟩
      · rw [if_neg hterm] at h
        by_cases htime : timeout < e
        · rw [if_pos htime] at h
          cases h
        · rw [if_neg htime] at h
          exact ih _ _ _ _ p h
    | netError msg =>
      rw [hc] at h
      dsimp only at h
      by_cases htime : timeout < e
      · rw [if_pos htime] at h
        cases h
      · rw [if_neg htime] at h
        exact ih _ _ _ _ p h

/-- A first status check hitting the terminal list resolves immediately with
its item. -/
theorem pollAux_first_terminal {π : Type} (T : List String)
    (check : Nat → CheckResult π) (timeout fuel k elapsed delay : Nat)
    (log : List (String × π)) (s : String) (p : π)
    (hc : check k = .ok s p) (hterm : T.contains s = true) :
    (pollAux T check timeout (fuel + 1) k elapsed delay log).outcome
      = PollOutcome.resolved p := by
  rw [pollAux, hc]
  dsimp only
  rw [if_pos hterm]

/-- Counterexample to claim C1: a status check returning `EXPIRED` — terminal
in the claim's set — does not stop `PaymentsAPI.poll`.  With default options
the loop keeps polling (15 status checks are made and reported) and finally
rejects with the polling timeout instead of resolving with the `EXPIRED`
snapshot, because the code's terminal list is only
`['SUCCESS', 'FAILED', 'CANCELLED']`. -/
theorem poll_expired_polls_to_timeout_counterexample :
    (@paymentsPoll Unit (fun _ => .ok "EXPIRED" ()) 0 0).outcome
      = PollOutcome.timedOut "Polling timeout" ∧
    (@paymentsPoll Unit (fun _ => .ok "EXPIRED" ()) 0 0).statusLog.length = 15 :=
  ⟨rfl, rfl⟩

/-- Claim C1 as amended: `PaymentsAPI.poll` resolves exactly on the statuses
`SUCCESS`, `FAILED`, `CANCELLED` and `PayoutsAPI.poll` exactly on
`COMPLETED`, `FAILED`, `CANCELLED`; every resolution comes from a check that
returned such a status (soundness), and a first check returning one stops the
loop immediately with that snapshot.  Any other returned status — `PENDING`,
`PROCESSING`, but also `EXPIRED` — keeps the loop polling. -/
theorem poll_terminal_set :
    (∀ (π : Type) (check : Nat → CheckResult π) (interval timeout : Nat) (p : π),
      (paymentsPoll check interval timeout).outcome = PollOutcome.resolved p →
      ∃ i s, check i = .ok s p ∧ paymentsTerminal.contains s = true) ∧
    (∀ (π : Type) (check : Nat → CheckResult π) (interval timeout : Nat)
      (s : String) (p : π),
      check 0 = .ok s p → paymentsTerminal.contains s = true →
      (paymentsPoll check interval timeout).outcome = PollOutcome.resolved p) ∧
    (∀ (π : Type) (check : Nat → CheckResult π) (interval timeout : Nat) (p : π),
      (payoutsPoll check interval timeout).outcome = PollOutcome.resolved p →
      ∃ i s, check i = .ok s p ∧ payoutsTerminal.contains s = true) ∧
    (∀ (π : Type) (check : Nat → CheckResult π) (interval timeout : Nat)
      (s : String) (p : π),
      check 0 = .ok s p → payoutsTerminal.contains s = true →
      (payoutsPoll check interval timeout).outcome = PollOutcome.resolved p) := by
  refine ⟨?_, ?_, ?_, ?_⟩
  · intro π check interval timeout p h
    unfold paymentsPoll at h
    dsimp only at h
    exact pollAux_resolved_sound paymentsTerminal check _ _ _ _ _ _ p h
  · intro π check interval timeout s p hc hterm
    unfold paymentsPoll
    dsimp only
    exact pollAux_first_terminal paymentsTerminal check _
      (jsOrDefault timeout 120000 + 1) 0 0 _ [] s p hc hterm
  · intro π check interval timeout p h
    unfold payoutsPoll at h
    dsimp only at h
    exact pollAux_resolved_sound payoutsTerminal check _ _ _ _ _ _ p h
  · intro π check interval timeout s p hc hterm
    unfold payoutsPoll
    dsimp only
    exact pollAux_first_terminal payoutsTerminal check _
      (jsOrDefault timeout 120000 + 1) 0 0 _ [] s p hc hterm

/-- Witness for the amended C1: a first `SUCCESS` check stops the payments
poll at once, a first `COMPLETED` check stops the payouts poll, and the
soundness direction recovers the terminal status from the resolved run. -/
theorem poll_terminal_set_witness :
    (@paymentsPoll Unit (fun _ => .ok "SUCCESS" ()) 0 0).outcome
      = PollOutcome.resolved () ∧
    (@payoutsPoll Unit (fun _ => .ok "COMPLETED" ()) 0 0).outcome
      = PollOutcome.resolved () ∧
    (∃ (i : Nat) (s : String),
      (fun _ : Nat => CheckResult.ok "SUCCESS" ()) i = CheckResult.ok s () ∧
      paymentsTerminal.contains s = true) := by
  exact ⟨poll_terminal_set.2.1 Unit (fun _ => .ok "SUCCESS" ()) 0 0 "SUCCESS" () rfl rfl,
    poll_terminal_set.2.2.2 Unit (fun _ => .ok "COMPLETED" ()) 0 0 "COMPLETED" () rfl rfl,
    poll_terminal_set.1 Unit (fun _ => .ok "SUCCESS" ()) 0 0 ()
      (poll_terminal_set.2.1 Unit (fun _ => .ok "SUCCESS" ()) 0 0 "SUCCESS" () rfl rfl)⟩

/-- With a positive delay and fuel at least `timeout + 2` beyond the elapsed
time, the poll loop never exhausts its fuel: every sleep advances the clock by
at least one millisecond, so the deadline check fires first. -/
theorem pollAux_ne_outOfFuel {π : Type} (T : List String)
    (check : Nat → CheckResult π) (timeout : Nat) :
    ∀ (fuel k elapsed delay : Nat) (log : List (String × π)),
      1 ≤ delay → 1 ≤ fuel → timeout + 2 ≤ fuel + elapsed →
      (pollAux T check timeout fuel k elapsed delay log).outcome
        ≠ PollOutcome.outOfFuel := by
  intro fuel
  induction fuel with
  | zero => intro k e d log hd hf hsum; omega
  | succ fuel ih =>
    intro k e d log hd hf hsum
    rw [pollAux]
    cases hc : check k with
    | ok status item =>
      dsimp only
      by_cases hterm : T.contains status = true
      · rw [if_pos hterm]
        intro h
        cases h
      · rw [if_neg hterm]
        by_cases htime : timeout < e
        · rw [if_pos htime]
          intro h
          cases h
        · rw [if_neg htime]
          have hd2 : 1 ≤ min (d * 3 / 2) 10000 := by
            have h3 : 3 ≤ d * 3 := by omega
            have : 3 / 2 ≤ d * 3 / 2 := Nat.div_le_div_right h3
            exact le_min (by omega) (by omega)
          exact ih (k + 1) (e + min (d * 3 / 2) 10000) (min (d * 3 / 2) 10000) _
            hd2 (by omega) (by omega)
    | netError msg =>
      dsimp only
      by_cases htime : timeout < e
      · rw [if_pos htime]
        intro h
        cases h
      · rw [if_neg htime]
        exact ih (k + 1) (e + d) d _ hd (by omega) (by omega)

/-- The elapsed time a poll run reports never exceeds the timeout by more
than one sleep interval: sleeps are bounded by `max delay 10000` and happen
only while the deadline has not yet passed. -/
theorem pollAux_elapsed_le {π : Type} (T : List String)
    (check : Nat → CheckResult π) (timeout : Nat) :
    ∀ (fuel k elapsed delay M : Nat) (log : List (String × π)),
      10000 ≤ M → delay ≤ M → elapsed ≤ timeout + M →
      (pollAux T check timeout fuel k elapsed delay log).elapsed ≤ timeout + M := by
  intro fuel
  induction fuel with
  | zero => intro k e d M log hM hd he; exact he
  | succ fuel ih =>
    intro k e d M log hM hd he
    rw [pollAux]
    cases hc : check k with
    | ok status item =>
      dsimp only
      by_cases hterm : T.contains status = true
      · rw [if_pos hterm]; exact he
      · rw [if_neg hterm]
        by_cases htime : timeout < e
        · rw [if_pos htime]; exact he
        · rw [if_neg htime]
          have hmin : min (d * 3 / 2) 10000 ≤ M :=
            le_trans (min_le_right _ _) hM
          exact ih (k + 1) (e + min (d * 3 / 2) 10000) (min (d * 3 / 2) 10000) M _
            hM hmin (by omega)
    | netError msg =>
      dsimp only
      by_cases htime : timeout < e
      · rw [if_pos htime]; exact he
      · rw [if_neg htime]
        exact ih (k + 1) (e + d) d M _ hM hd (by omega)

/-- Counterexample to claim C6: with a `checkStatus` stub that always fails
with a network error, `PaymentsAPI.poll` does terminate at the deadline — but
it rejects with the last network error itself (`reject(error)` in the catch
branch), not with a timeout error: the outcome is `rejectedError
"ECONNRESET"`, not `timedOut "Polling timeout"`. -/
theorem poll_network_error_not_timeout_counterexample :
    (@paymentsPoll Unit (fun _ => .netError "ECONNRESET") 0 0).outcome
      = PollOutcome.rejectedError "ECONNRESET" ∧
    (@paymentsPoll Unit (fun _ => .netError "ECONNRESET") 0 0).outcome
      ≠ PollOutcome.timedOut "Polling timeout" := by
  have h : (@paymentsPoll Unit (fun _ => .netError "ECONNRESET") 0 0).outcome
      = PollOutcome.rejectedError "ECONNRESET" := rfl
  refine ⟨h, ?_⟩
  rw [h]
  intro hc
  cases hc

/-- Claim C6 as amended: for every stub that never returns a status from the
terminal list — always `PENDING`, or always a network error, or any mix —
`paymentsPoll` neither loops forever nor hangs: it terminates with a
rejection (`'Polling timeout'` when the final check returned a non-terminal
status, or the network error itself when the final check failed), and the
elapsed time at termination is at most the effective `timeoutMs` plus one
backoff interval of slack (`max intervalMs 10000`). -/
theorem poll_bounded_termination :
    ∀ (π : Type) (check : Nat → CheckResult π) (interval timeout : Nat),
      (∀ i s p, check i = .ok s p → paymentsTerminal.contains s = false) →
      ((∃ m, (paymentsPoll check interval timeout).outcome
          = PollOutcome.timedOut m) ∨
        (∃ m, (paymentsPoll check interval timeout).outcome
          = PollOutcome.rejectedError m)) ∧
      (paymentsPoll check interval timeout).elapsed
        ≤ jsOrDefault timeout 120000 + max (jsOrDefault interval 2000) 10000 := by
  intro π check interval timeout hnt
  have hd1 : 1 ≤ jsOrDefault interval 2000 := by
    unfold jsOrDefault
    split <;> omega
  constructor
  · have hnofuel := pollAux_ne_outOfFuel paymentsTerminal check
      (jsOrDefault timeout 120000) (jsOrDefault timeout 120000 + 2) 0 0
      (jsOrDefault interval 2000) [] hd1 (by omega) (by omega)
    have hnores : ∀ p, (paymentsPoll check interval timeout).outcome
        ≠ PollOutcome.resolved p := by
      intro p h
      rcases poll_terminal_set.1 π check interval timeout p h with ⟨i, s, hc, hcon⟩
      rw [hnt i s p hc] at hcon
      cases hcon
    cases houtcome : (paymentsPoll check interval timeout).outcome with
    | resolved p => exact absurd houtcome (hnores p)
    | timedOut m => exact Or.inl ⟨m, rfl⟩
    | rejectedError m => exact Or.inr ⟨m, rfl⟩
    | outOfFuel =>
      exfalso
      apply hnofuel
      rw [← houtcome]
      rfl
  · unfold paymentsPoll
    dsimp only
    exact pollAux_elapsed_le paymentsTerminal check (jsOrDefault timeout 120000)
      (jsOrDefault timeout 120000 + 2) 0 0 (jsOrDefault interval 2000)
      (max (jsOrDefault interval 2000) 10000) []
      (le_max_right _ _) (le_max_left _ _) (by omega)

/-- Witness for the amended C6, at the always-network-error stub with default
options: the poll rejects (with the network error) and its elapsed time stays
within `120000 + 10000`. -/
theorem poll_bounded_termination_witness :
    (((∃ m, (@paymentsPoll Unit (fun _ => .netError "ECONNRESET") 0 0).outcome
        = PollOutcome.timedOut m) ∨
      (∃ m, (@paymentsPoll Unit (fun _ => .netError "ECONNRESET") 0 0).outcome
        = PollOutcome.rejectedError m)) ∧
      (@paymentsPoll Unit (fun _ => .netError "ECONNRESET") 0 0).elapsed
        ≤ jsOrDefault 0 120000 + max (jsOrDefault 0 2000) 10000) :=
  poll_bounded_termination Unit (fun _ => .netError "ECONNRESET") 0 0
    (fun _ _ _ h => CheckResult.noConfusion h)

/-- Claim C8: for every poll run whose successive status checks return
`PENDING`, `PENDING`, then `SUCCESS` (with arbitrary snapshots), the run —
with the default interval and timeout — resolves with the third (`SUCCESS`)
snapshot, and the `onStatus` callback is invoked exactly three times, in
order, once per check result. -/
theorem poll_success_path (π : Type) (p1 p2 p3 : π) :
    (paymentsPoll
      (fun i => if i = 0 then .ok "PENDING" p1
        else if i = 1 then .ok "PENDING" p2
        else .ok "SUCCESS" p3) 0 0).outcome = PollOutcome.resolved p3 ∧
    (paymentsPoll
      (fun i => if i = 0 then .ok "PENDING" p1
        else if i = 1 then .ok "PENDING" p2
        else .ok "SUCCESS" p3) 0 0).statusLog
      = [("PENDING", p1), ("PENDING", p2), ("SUCCESS", p3)] :=
  ⟨rfl, rfl⟩

/-- Witness for C8 at concrete `Unit` snapshots. -/
theorem poll_success_path_witness :
    (paymentsPoll
      (fun i => if i = 0 then CheckResult.ok "PENDING" ()
        else if i = 1 then CheckResult.ok "PENDING" ()
        else CheckResult.ok "SUCCESS" ()) 0 0).outcome = PollOutcome.resolved () ∧
    (paymentsPoll
      (fun i => if i = 0 then CheckResult.ok "PENDING" ()
        else if i = 1 then CheckResult.ok "PENDING" ()
        else CheckResult.ok "SUCCESS" ()) 0 0).statusLog
      = [("PENDING", ()), ("PENDING", ()), ("SUCCESS", ())] :=
  poll_success_path Unit () () ()
